import Mathlib

/-!
Shallow embedding of the Epic Todo List task model (`taskModel.js`): the
`Task` entity and the `TaskManager` collection manager, together with proofs
of the specified properties.

Modelling conventions:
* Timestamps are ISO-8601 strings in the source, produced by
  `new Date().toISOString()`; they are order-isomorphic to the underlying
  numeric time value and are always non-empty (hence truthy in JS).  We model
  them as `Nat`, passed in explicitly as a `now` argument to every operation
  that reads the clock.
* JS `x || d` defaulting is translated according to the value domain of `x`:
  for strings the empty string is falsy, for booleans only `true` is truthy,
  for timestamps every value is truthy (non-empty string), for arrays every
  value (including `[]`) is truthy, and absent object properties are falsy.
* Operations that mutate the manager in place are modelled by explicit state
  passing; a thrown error is an `Except.error` result paired with the state
  at the throw point (all throws in the modelled code happen before any
  mutation).  Event emission is modelled as an explicit event list where a
  claim depends on it.
-/

namespace Todo

/-- JS `String.prototype.trim` removes leading and trailing whitespace.
Modelled over the character list with the common whitespace characters. -/
def isJsWhitespace (c : Char) : Bool :=
  c = ' ' || c = '\t' || c = '\n' || c = '\r'

/-- Model of JS `s.trim()`. -/
def jsTrim (s : String) : String :=
  String.mk (((s.toList.dropWhile isJsWhitespace).reverse.dropWhile isJsWhitespace).reverse)

/-- Lower-case a single ASCII character (model of the case mapping used by
`toLowerCase` on the ASCII inputs the model ranges over). -/
def lowerChar (c : Char) : Char :=
  if 'A' ≤ c && c ≤ 'Z' then Char.ofNat (c.toNat + 32) else c

/-- Model of JS `s.toLowerCase()`. -/
def jsToLower (s : String) : String :=
  String.mk (s.toList.map lowerChar)

/-- Model of JS `hay.includes(needle)`: substring containment. -/
def jsIncludes (hay needle : String) : Bool :=
  hay.toList.tails.any (fun t => needle.toList.isPrefixOf t)

/-- Timestamps: numeric code of an ISO-8601 instant. -/
abbrev Timestamp := Nat

/-- The `Task` entity of `taskModel.js`: one to-do item. -/
structure Task where
  id : String
  text : String
  completed : Bool
  createdAt : Timestamp
  completedAt : Option Timestamp
  updatedAt : Timestamp
  priority : String
  category : String
  tags : List String
  dueDate : Option Timestamp
  description : String
deriving Repr, DecidableEq

/-- The optional second constructor argument (`options`): any subset of the
task fields may be supplied; absent fields are `none`. -/
structure TaskOptions where
  id : Option String := none
  completed : Option Bool := none
  createdAt : Option Timestamp := none
  completedAt : Option Timestamp := none
  updatedAt : Option Timestamp := none
  priority : Option String := none
  category : Option String := none
  tags : Option (List String) := none
  dueDate : Option Timestamp := none
  description : Option String := none
deriving Repr, DecidableEq

/-- Source `generateId()`: `'task-' + Date.now() + '-' + randomSuffix`.  The random
suffix is abstracted away; only the shape and non-emptiness of the id matter
to the verified properties. -/
def generateId (now : Timestamp) : String :=
  "task-" ++ toString now

/-- JS `v || dflt` on a possibly-absent string property: absent and the empty
string are falsy. -/
def jsOrStr (v : Option String) (dflt : String) : String :=
  match v with
  | some s => if s = "" then dflt else s
  | none => dflt

/-- The `Task` constructor, line for line:
`id = options.id || generateId()`, `text = text.trim()`,
`completed = options.completed || false`,
`createdAt = options.createdAt || now`, `completedAt = options.completedAt || null`,
`updatedAt = options.updatedAt || now`, `priority = options.priority || 'normal'`,
`category = options.category || 'default'`, `tags = options.tags || []`,
`dueDate = options.dueDate || null`, `description = options.description || ''`.
Timestamps and arrays are always truthy (see module docstring), so their
defaults collapse to `Option.getD`; for `description` the default is itself
`""`, so `|| ''` also collapses to `getD`. -/
def mkTask (now : Timestamp) (text : String) (options : TaskOptions) : Task :=
  { id := jsOrStr options.id (generateId now)
    text := jsTrim text
    completed := options.completed.getD false
    createdAt := options.createdAt.getD now
    completedAt := options.completedAt
    updatedAt := options.updatedAt.getD now
    priority := jsOrStr options.priority "normal"
    category := jsOrStr options.category "default"
    tags := options.tags.getD []
    dueDate := options.dueDate
    description := options.description.getD "" }

/-- Source `Task.prototype.toggle`: flips `completed`, sets `completedAt` to now when
the new value is true and to null otherwise, refreshes `updatedAt`. -/
def Task.toggle (t : Task) (now : Timestamp) : Task :=
  { t with
    completed := !t.completed
    completedAt := if !t.completed then some now else none
    updatedAt := now }

/-- Source `Task.prototype.updateText`: applies the trimmed text only when it is
non-empty after trimming; returns the success flag. -/
def Task.updateText (t : Task) (now : Timestamp) (newText : String) : Task × Bool :=
  if jsTrim newText ≠ "" then
    ({ t with text := jsTrim newText, updatedAt := now }, true)
  else
    (t, false)

/-- Source `Task.prototype.setPriority`: applies only a value in
`['low', 'normal', 'high']`. -/
def Task.setPriority (t : Task) (now : Timestamp) (priority : String) : Task × Bool :=
  if priority = "low" || priority = "normal" || priority = "high" then
    ({ t with priority := priority, updatedAt := now }, true)
  else
    (t, false)

/-- Source `Task.prototype.addTag`: normalizes via trim + lowercase; appends only a
non-empty normalized tag that is not already present. -/
def Task.addTag (t : Task) (now : Timestamp) (tag : String) : Task × Bool :=
  let tagStr := jsToLower (jsTrim tag)
  if tagStr ≠ "" && !(t.tags.contains tagStr) then
    ({ t with tags := t.tags ++ [tagStr], updatedAt := now }, true)
  else
    (t, false)

/-- Source `Task.prototype.removeTag`: normalizes the same way and removes the first
occurrence when present. -/
def Task.removeTag (t : Task) (now : Timestamp) (tag : String) : Task × Bool :=
  let tagStr := jsToLower (jsTrim tag)
  if t.tags.contains tagStr then
    ({ t with tags := t.tags.erase tagStr, updatedAt := now }, true)
  else
    (t, false)

/-- Source `Task.prototype.setDueDate`: a (truthy) timestamp value sets the field, an
explicit null clears it; both refresh `updatedAt` and succeed.  The rejection
branch of the source handles values outside the string/Date/null domain,
which the `Option Timestamp` argument cannot represent. -/
def Task.setDueDate (t : Task) (now : Timestamp) (date : Option Timestamp) : Task × Bool :=
  match date with
  | some d => ({ t with dueDate := some d, updatedAt := now }, true)
  | none => ({ t with dueDate := none, updatedAt := now }, true)

/-- The plain-object form produced by `Task.prototype.toJSON` and consumed by
`Task.fromJSON`; every field other than `text` may be absent or null when the
data comes from an import. -/
structure TaskJSON where
  id : Option String := none
  text : String
  completed : Option Bool := none
  createdAt : Option Timestamp := none
  completedAt : Option Timestamp := none
  updatedAt : Option Timestamp := none
  priority : Option String := none
  category : Option String := none
  tags : Option (List String) := none
  dueDate : Option Timestamp := none
  description : Option String := none
deriving Repr, DecidableEq

/-- Source `Task.prototype.toJSON`: emits every field (`tags` as a fresh copy). -/
def Task.toJSON (t : Task) : TaskJSON :=
  { id := some t.id
    text := t.text
    completed := some t.completed
    createdAt := some t.createdAt
    completedAt := t.completedAt
    updatedAt := some t.updatedAt
    priority := some t.priority
    category := some t.category
    tags := some t.tags
    dueDate := t.dueDate
    description := some t.description }

/-- Source `Task.fromJSON`: `new Task(data.text, { ...all other fields })`. -/
def Task.fromJSON (now : Timestamp) (data : TaskJSON) : Task :=
  mkTask now data.text
    { id := data.id
      completed := data.completed
      createdAt := data.createdAt
      completedAt := data.completedAt
      updatedAt := data.updatedAt
      priority := data.priority
      category := data.category
      tags := data.tags
      dueDate := data.dueDate
      description := data.description }

/-- The two error kinds thrown by the manager: empty text on add (and
non-sequence import data) versus a missing task id. -/
inductive TaskError where
  | validationError
  | notFoundError
deriving Repr, DecidableEq

/-- The named notifications dispatched by the manager. -/
inductive Event where
  | taskAdded
  | taskRemoved
  | taskUpdated
  | tasksChanged
  | filterChanged
  | searchChanged
  | sortingChanged
  | completedCleared
  | tasksReset
  | tasksImported
  | tasksLoaded
deriving Repr, DecidableEq

/-- The `TaskManager` state; field defaults are the constructor's initial
values. -/
structure TaskManager where
  tasks : List Task := []
  filter : String := "all"
  searchQuery : String := ""
  sortBy : String := "createdAt"
  sortOrder : String := "desc"
deriving Repr, DecidableEq

/-- The partial-update map accepted by `updateTask`: any subset of the task's
own mutable fields (the source iterates `Object.keys(updates)`; keys the task
does not own are ignored and cannot be represented here).  `dueDate` is
doubly optional: `some none` is an explicit null. -/
structure Updates where
  text : Option String := none
  priority : Option String := none
  dueDate : Option (Option Timestamp) := none
  completed : Option Bool := none
  category : Option String := none
  description : Option String := none
  tags : Option (List String) := none
  completedAt : Option (Option Timestamp) := none
deriving Repr, DecidableEq

/-- The `key === 'text'` branch of `updateTask`: a truthy (non-empty) value is
routed through the validated `updateText`, while a falsy value (the empty
string) falls through to the generic own-property branch, which assigns it
directly and refreshes `updatedAt`. -/
def applyText (now : Timestamp) (v : Option String) (t : Task) : Task :=
  match v with
  | none => t
  | some s => if s ≠ "" then (t.updateText now s).1 else { t with text := s, updatedAt := now }

/-- The `key === 'priority'` branch: routed through `setPriority`. -/
def applyPriority (now : Timestamp) (v : Option String) (t : Task) : Task :=
  match v with
  | none => t
  | some p => (t.setPriority now p).1

/-- The `key === 'dueDate'` branch: routed through `setDueDate`. -/
def applyDueDate (now : Timestamp) (v : Option (Option Timestamp)) (t : Task) : Task :=
  match v with
  | none => t
  | some d => (t.setDueDate now d).1

/-- The `key === 'completed'` branch: toggles only when the new value differs
from the current one. -/
def applyCompleted (now : Timestamp) (v : Option Bool) (t : Task) : Task :=
  match v with
  | none => t
  | some b => if b ≠ t.completed then t.toggle now else t

/-- The generic `task.hasOwnProperty(key)` branch for `category`: direct
assignment plus an `updatedAt` refresh. -/
def applyCategory (now : Timestamp) (v : Option String) (t : Task) : Task :=
  match v with
  | none => t
  | some c => { t with category := c, updatedAt := now }

/-- Generic own-property branch for `description`. -/
def applyDescription (now : Timestamp) (v : Option String) (t : Task) : Task :=
  match v with
  | none => t
  | some d => { t with description := d, updatedAt := now }

/-- Generic own-property branch for `tags`. -/
def applyTags (now : Timestamp) (v : Option (List String)) (t : Task) : Task :=
  match v with
  | none => t
  | some l => { t with tags := l, updatedAt := now }

/-- Generic own-property branch for `completedAt`. -/
def applyCompletedAt (now : Timestamp) (v : Option (Option Timestamp)) (t : Task) : Task :=
  match v with
  | none => t
  | some c => { t with completedAt := c, updatedAt := now }

/-- The body of `updateTask`'s `Object.keys(updates).forEach` loop, applied in
the declared field order (JS iterates keys in insertion order; all verified
properties use single-field update maps, for which the order is immaterial). -/
def applyUpdates (now : Timestamp) (t : Task) (u : Updates) : Task :=
  applyCompletedAt now u.completedAt
    (applyTags now u.tags
      (applyDescription now u.description
        (applyCategory now u.category
          (applyCompleted now u.completed
            (applyDueDate now u.dueDate
              (applyPriority now u.priority
                (applyText now u.text t)))))))

/-- Source `addTask(text, options)`: throws on text that is empty (or only
whitespace) before any mutation; otherwise constructs the task and unshifts
it onto the front of the collection. -/
def TaskManager.addTask (s : TaskManager) (now : Timestamp) (text : String)
    (options : TaskOptions) : Except TaskError Task × TaskManager :=
  if jsTrim text = "" then
    (Except.error TaskError.validationError, s)
  else
    let task := mkTask now text options
    (Except.ok task, { s with tasks := task :: s.tasks })

/-- Replace the first element satisfying `p` (the source finds the task object
and mutates it in place, leaving its position unchanged). -/
def replaceFirst (p : Task → Bool) (f : Task → Task) : List Task → List Task
  | [] => []
  | x :: xs => if p x then f x :: xs else x :: replaceFirst p f xs

/-- Source `removeTask(id)`: throws when no task has the id; otherwise splices out
the first (and in practice only) task with that id. -/
def TaskManager.removeTask (s : TaskManager) (taskId : String) :
    Except TaskError Task × TaskManager :=
  match s.tasks.find? (fun t => t.id == taskId) with
  | none => (Except.error TaskError.notFoundError, s)
  | some t =>
      (Except.ok t, { s with tasks := s.tasks.eraseP (fun t => t.id == taskId) })

/-- Source `getTask(id)`: pure lookup, throwing when absent. -/
def TaskManager.getTask (s : TaskManager) (taskId : String) : Except TaskError Task :=
  match s.tasks.find? (fun t => t.id == taskId) with
  | none => Except.error TaskError.notFoundError
  | some t => Except.ok t

/-- Source `updateTask(id, updates)`: throws when absent; otherwise mutates the found
task in place via the per-field branches of `applyUpdates` and returns it. -/
def TaskManager.updateTask (s : TaskManager) (now : Timestamp) (taskId : String)
    (updates : Updates) : Except TaskError Task × TaskManager :=
  match s.tasks.find? (fun t => t.id == taskId) with
  | none => (Except.error TaskError.notFoundError, s)
  | some t =>
      (Except.ok (applyUpdates now t updates),
       { s with
         tasks := replaceFirst (fun t => t.id == taskId)
                    (fun t => applyUpdates now t updates) s.tasks })

/-- Source `toggleTask(id)`: `updateTask(id, { completed: !getTask(id).completed })`. -/
def TaskManager.toggleTask (s : TaskManager) (now : Timestamp) (taskId : String) :
    Except TaskError Task × TaskManager :=
  match s.getTask taskId with
  | Except.error e => (Except.error e, s)
  | Except.ok t => s.updateTask now taskId { completed := some (!t.completed) }

/-- Source `getAllTasks()`: a defensive copy of the collection. -/
def TaskManager.getAllTasks (s : TaskManager) : List Task :=
  s.tasks

/-- Step 1–2 of `getFilteredTasks`: the status filter. -/
def statusFiltered (s : TaskManager) : List Task :=
  if s.filter = "active" then s.tasks.filter (fun t => !t.completed)
  else if s.filter = "completed" then s.tasks.filter (fun t => t.completed)
  else s.tasks

/-- One task's search predicate: case-insensitive substring match against
text, description, or any tag (tags are matched as stored). -/
def matchesSearch (query : String) (t : Task) : Bool :=
  jsIncludes (jsToLower t.text) query
    || jsIncludes (jsToLower t.description) query
    || t.tags.any (fun tag => jsIncludes tag query)

/-- Step 3 of `getFilteredTasks`: the search filter, applied only when the
query is non-empty. -/
def searchFiltered (s : TaskManager) (l : List Task) : List Task :=
  if s.searchQuery ≠ "" then l.filter (matchesSearch (jsToLower s.searchQuery)) else l

/-- Source `priorityOrder[p] || 2`: high 3, normal 2, low 1, anything else 2. -/
def priorityOrder (p : String) : Nat :=
  if p = "high" then 3 else if p = "low" then 1 else 2

/-- Lexicographic comparison of character lists by code point (model of
`localeCompare` ≤ 0 on the inputs the model ranges over). -/
def lexLe : List Char → List Char → Bool
  | [], _ => true
  | _ :: _, [] => false
  | a :: as, b :: bs =>
      if a.toNat < b.toNat then true
      else if b.toNat < a.toNat then false
      else lexLe as bs

/-- String comparison used by the `text` sort. -/
def strLe (a b : String) : Bool :=
  lexLe a.toList b.toList

/-- The sort comparator of `getFilteredTasks` as a boolean "a before-or-equal
b" relation: comparator(a, b) ≤ 0.  `sortOrder` flips the comparison. -/
def taskLe (s : TaskManager) (a b : Task) : Bool :=
  if s.sortBy = "priority" then
    (if s.sortOrder = "asc" then decide (priorityOrder a.priority ≤ priorityOrder b.priority)
     else decide (priorityOrder b.priority ≤ priorityOrder a.priority))
  else if s.sortBy = "text" then
    (if s.sortOrder = "asc" then strLe (jsToLower a.text) (jsToLower b.text)
     else strLe (jsToLower b.text) (jsToLower a.text))
  else if s.sortBy = "updatedAt" then
    (if s.sortOrder = "asc" then decide (a.updatedAt ≤ b.updatedAt)
     else decide (b.updatedAt ≤ a.updatedAt))
  else
    (if s.sortOrder = "asc" then decide (a.createdAt ≤ b.createdAt)
     else decide (b.createdAt ≤ a.createdAt))

/-- Insert `x` after every element already ordered no later than it; the
building block of a stable insertion sort. -/
def insertLe (le : Task → Task → Bool) (x : Task) : List Task → List Task
  | [] => [x]
  | y :: ys => if le y x then y :: insertLe le x ys else x :: y :: ys

/-- Stable sort (model of `Array.prototype.sort`, which ECMA-262 requires to
be stable): each element is inserted after its ties, preserving the original
relative order of equal elements. -/
def stableSort (le : Task → Task → Bool) (l : List Task) : List Task :=
  l.foldl (fun acc x => insertLe le x acc) []

/-- Step 4 of `getFilteredTasks` plus the pipeline: status filter, then search
filter, then sort.  A pure function of the state — it performs no mutation,
persistence, or emission. -/
def TaskManager.getFilteredTasks (s : TaskManager) : List Task :=
  stableSort (taskLe s) (searchFiltered s (statusFiltered s))

/-- Source `setFilter(f)`: a valid value is stored and `filterChanged` dispatched
(returning true); an invalid value changes nothing, emits nothing, and
returns false.  No `tasksChanged` is dispatched either way. -/
def TaskManager.setFilter (s : TaskManager) (f : String) :
    TaskManager × List Event × Bool :=
  if f = "all" || f = "active" || f = "completed" then
    ({ s with filter := f }, [Event.filterChanged], true)
  else
    (s, [], false)

/-- Source `setSearchQuery(q)`: stores the trimmed query and dispatches
`searchChanged`. -/
def TaskManager.setSearchQuery (s : TaskManager) (q : String) :
    TaskManager × List Event :=
  ({ s with searchQuery := jsTrim q }, [Event.searchChanged])

/-- Source `setSorting(sortBy, sortOrder)`: each component is validated
independently; an invalid component leaves its field unchanged.
`sortingChanged` is dispatched unconditionally, `tasksChanged` never. -/
def TaskManager.setSorting (s : TaskManager) (sortBy sortOrder : String) :
    TaskManager × List Event :=
  let s1 :=
    if sortBy = "createdAt" || sortBy = "updatedAt" || sortBy = "priority" || sortBy = "text"
    then { s with sortBy := sortBy } else s
  let s2 :=
    if sortOrder = "asc" || sortOrder = "desc"
    then { s1 with sortOrder := sortOrder } else s1
  (s2, [Event.sortingChanged])

/-- One iteration of the `bulkComplete` loop: a missing id is swallowed by
the `catch`; an incomplete task is toggled and the (mutated) task collected. -/
def bulkCompleteStep (now : Timestamp) (acc : List Task × TaskManager)
    (taskId : String) : List Task × TaskManager :=
  match acc.2.getTask taskId with
  | Except.error _ => acc
  | Except.ok t =>
      if !t.completed then
        match acc.2.toggleTask now taskId with
        | (Except.ok t', s') => (acc.1 ++ [t'], s')
        | (Except.error _, s') => (acc.1, s')
      else acc

/-- Source `bulkComplete(ids)`: best-effort per id. -/
def TaskManager.bulkComplete (s : TaskManager) (now : Timestamp)
    (taskIds : List String) : List Task × TaskManager :=
  taskIds.foldl (bulkCompleteStep now) ([], s)

/-- One iteration of the `bulkDelete` loop: per-id failures of `removeTask`
are swallowed. -/
def bulkDeleteStep (acc : List Task × TaskManager) (taskId : String) :
    List Task × TaskManager :=
  match acc.2.removeTask taskId with
  | (Except.ok t, s') => (acc.1 ++ [t], s')
  | (Except.error _, s') => (acc.1, s')

/-- Source `bulkDelete(ids)`: best-effort per id via `removeTask`. -/
def TaskManager.bulkDelete (s : TaskManager) (taskIds : List String) :
    List Task × TaskManager :=
  taskIds.foldl bulkDeleteStep ([], s)

/-- Source `clearCompleted()`: removes every completed task in one step and returns
them. -/
def TaskManager.clearCompleted (s : TaskManager) : List Task × TaskManager :=
  (s.tasks.filter (fun t => t.completed),
   { s with tasks := s.tasks.filter (fun t => !t.completed) })

/-- Source `importTasks(tasksData, merge)`: reconstructs a task from every element;
in merge mode appends only those whose id is not already present, in replace
mode replaces the whole collection.  The `Array.isArray` validation branch is
unreachable here because the argument is a list by type. -/
def TaskManager.importTasks (s : TaskManager) (now : Timestamp)
    (tasksData : List TaskJSON) (merge : Bool) : Bool × TaskManager :=
  let importedTasks := tasksData.map (Task.fromJSON now)
  if merge then
    let existingIds := s.tasks.map (fun t => t.id)
    let newTasks := importedTasks.filter (fun t => !(existingIds.contains t.id))
    (true, { s with tasks := s.tasks ++ newTasks })
  else
    (true, { s with tasks := importedTasks })

/-- Source `reset()`: clears the collection and restores the view state to its
defaults. -/
def TaskManager.reset (_ : TaskManager) : TaskManager :=
  { tasks := [], filter := "all", searchQuery := "", sortBy := "createdAt",
    sortOrder := "desc" }

/-- The four derived-view fields of the manager: everything except the
collection itself. -/
def viewOf (s : TaskManager) : String × String × String × String :=
  (s.filter, s.searchQuery, s.sortBy, s.sortOrder)

/-- A concrete empty manager (constructor state before any load). -/
def mgr0 : TaskManager :=
  {}

/-- A concrete well-formed task used to instantiate the universally
quantified theorems. -/
def task1 : Task :=
  { id := "t1", text := "a", completed := false, createdAt := 0,
    completedAt := none, updatedAt := 0, priority := "normal",
    category := "default", tags := [], dueDate := none, description := "" }

/-- A concrete completed task. -/
def task2 : Task :=
  { id := "t2", text := "b", completed := true, createdAt := 1,
    completedAt := some 1, updatedAt := 1, priority := "normal",
    category := "default", tags := [], dueDate := none, description := "" }

/-- A manager holding exactly `task1`. -/
def mgr1 : TaskManager :=
  { tasks := [task1] }

/-- A manager holding an active and a completed task, with the `active`
status filter selected. -/
def mgrActive : TaskManager :=
  { tasks := [task1, task2], filter := "active" }

/-- The prefix of an append of lists. -/
theorem take_length_append (l r : List Task) : (l ++ r).take l.length = l := by
  induction l with
  | nil => rfl
  | cons x xs ih => simp [ih]

/-- C1: `addTask(text, options)` throws `ValidationError` and leaves the state
untouched when the text trims to empty; otherwise it returns the constructed
task, whose text is the trimmed input (and whose `completed` is false when no
override is supplied), prepends it to the collection, and grows the
collection by exactly one, the new task being first in `getAllTasks()`. -/
theorem C1_addTask_contract (now : Timestamp) (text : String) (o : TaskOptions)
    (s : TaskManager) :
    (jsTrim text = "" → s.addTask now text o = (Except.error TaskError.validationError, s)) ∧
    (jsTrim text ≠ "" →
      (s.addTask now text o).1 = Except.ok (mkTask now text o) ∧
      (mkTask now text o).text = jsTrim text ∧
      (o.completed = none → (mkTask now text o).completed = false) ∧
      (s.addTask now text o).2.tasks = mkTask now text o :: s.tasks ∧
      (s.addTask now text o).2.tasks.length = s.tasks.length + 1 ∧
      ((s.addTask now text o).2.getAllTasks).head? = some (mkTask now text o)) := by
  constructor
  · intro h
    simp [TaskManager.addTask, h]
  · intro h
    refine ⟨?_, rfl, ?_, ?_, ?_, ?_⟩
    · simp [TaskManager.addTask, h]
    · intro hc
      simp [mkTask, hc]
    · simp [TaskManager.addTask, h]
    · simp [TaskManager.addTask, h]
    · simp [TaskManager.addTask, h, TaskManager.getAllTasks]

/-- Witness for C1 at a concrete call: `addTask(" hi ")` on the empty manager
returns the constructed task with trimmed text and `completed = false`, and
grows the collection by one. -/
theorem C1_addTask_contract_witness :
    (mgr0.addTask 0 " hi " {}).1 = Except.ok (mkTask 0 " hi " {}) ∧
    (mkTask 0 " hi " {}).text = "hi" ∧
    (mkTask 0 " hi " {}).completed = false ∧
    (mgr0.addTask 0 " hi " {}).2.tasks.length = mgr0.tasks.length + 1 := by
  have h := (C1_addTask_contract 0 " hi " {} mgr0).2 (by decide)
  refine ⟨h.1, ?_, h.2.2.1 rfl, h.2.2.2.2.1⟩
  rw [h.2.1]
  decide

/-- C2 (code bug): `updateTask(id, { text: "" })` succeeds and leaves the task
with empty text.  The `key === 'text' && updates[key]` guard routes only
truthy strings to the validated `updateText`; the empty string falls through
to the generic own-property branch, which assigns it directly.  Evaluated at
a concrete failing input: a manager holding one task with text "a". -/
theorem C2_updateTask_empty_text_bug :
    (mgr1.updateTask 5 "t1" { text := some "" }).1
      = Except.ok { task1 with text := "", updatedAt := 5 } ∧
    ((mgr1.updateTask 5 "t1" { text := some "" }).2.tasks.map (fun t => t.text)) = [""] :=
  ⟨rfl, rfl⟩

/-- C3 (counterexample): constructing through `addTask` with the override
`{ completed: true }` yields a task with `completed = true` but
`completedAt = null`, because the constructor defaults each field
independently — refuting the claimed iff for construction with option
overrides. -/
theorem C3_completedAt_counterexample :
    (mgr0.addTask 0 "x" { completed := some true }).1
        = Except.ok (mkTask 0 "x" { completed := some true }) ∧
    (mkTask 0 "x" { completed := some true }).completed = true ∧
    (mkTask 0 "x" { completed := some true }).completedAt = none :=
  ⟨rfl, rfl, rfl⟩

/-- C3 (amended): `completedAt` is non-null iff `completed` holds for every
task whose construction options are consistent (in particular with default
options), and `toggle` always re-establishes the iff — setting `completedAt`
on the transition to true and clearing it on the transition to false.
Construction with an inconsistent override (e.g. `completed: true` and no
`completedAt`) violates the iff, as the counterexample shows. -/
theorem C3_completedAt_invariant (now now2 : Timestamp) (text : String)
    (o : TaskOptions) (t : Task) :
    (o.completed.getD false = o.completedAt.isSome →
       (mkTask now text o).completedAt.isSome = (mkTask now text o).completed) ∧
    ((t.toggle now2).completedAt.isSome = (t.toggle now2).completed) ∧
    (t.completed = false → (t.toggle now2).completedAt = some now2) ∧
    (t.completed = true → (t.toggle now2).completedAt = none) := by
  refine ⟨?_, ?_, ?_, ?_⟩
  · intro h
    simp [mkTask, h]
  · cases hb : t.completed <;> simp [Task.toggle, hb]
  · intro h
    simp [Task.toggle, h]
  · intro h
    simp [Task.toggle, h]

/-- Witness for C3 (amended): a consistent override satisfies the iff, and
toggling a concrete incomplete task stamps `completedAt`. -/
theorem C3_completedAt_invariant_witness :
    (mkTask 0 "x" { completed := some true, completedAt := some 3 }).completedAt.isSome
      = (mkTask 0 "x" { completed := some true, completedAt := some 3 }).completed ∧
    (task1.toggle 5).completedAt = some 5 := by
  have h := C3_completedAt_invariant 0 5 "x"
    { completed := some true, completedAt := some 3 } task1
  exact ⟨h.1 (by decide), h.2.2.1 (by decide)⟩

/-- Dropping a matched prefix twice is the same as dropping it once. -/
theorem dropWhile_dropWhile (p : Char → Bool) (l : List Char) :
    (l.dropWhile p).dropWhile p = l.dropWhile p := by
  induction l with
  | nil => rfl
  | cons x xs ih =>
      by_cases h : p x = true
      · simp [List.dropWhile_cons, h, ih]
      · simp [List.dropWhile_cons, h]

/-- A right trim preserves a left-trimmed list's left-trimmedness. -/
theorem dropWhile_rightTrim (p : Char → Bool) (m : List Char)
    (hm : m.dropWhile p = m) :
    ((m.reverse.dropWhile p).reverse).dropWhile p = (m.reverse.dropWhile p).reverse := by
  cases m with
  | nil => rfl
  | cons x xs =>
      have hx : ¬ p x = true := by
        have := List.dropWhile_eq_self_iff.mp hm (by simp)
        simpa using this
      rw [List.reverse_cons, List.dropWhile_append]
      split
      · simp [List.dropWhile_cons, hx]
      · rw [List.reverse_append]
        simp [List.dropWhile_cons, hx]

/-- Source `trim()` is idempotent. -/
theorem jsTrim_idem (s : String) : jsTrim (jsTrim s) = jsTrim s := by
  have key : (((s.toList.dropWhile isJsWhitespace).reverse.dropWhile
        isJsWhitespace).reverse).dropWhile isJsWhitespace
      = ((s.toList.dropWhile isJsWhitespace).reverse.dropWhile
        isJsWhitespace).reverse :=
    dropWhile_rightTrim isJsWhitespace (s.toList.dropWhile isJsWhitespace)
      (dropWhile_dropWhile isJsWhitespace s.toList)
  show String.mk ((((((s.toList.dropWhile isJsWhitespace).reverse.dropWhile
      isJsWhitespace).reverse).dropWhile isJsWhitespace).reverse.dropWhile
      isJsWhitespace).reverse) = jsTrim s
  rw [key, List.reverse_reverse,
    dropWhile_dropWhile isJsWhitespace ((s.toList.dropWhile isJsWhitespace).reverse)]
  rfl

/-- Every task the constructor produces satisfies the representation
invariants assumed by the round-trip theorem: a non-empty id, text equal to
its own trim, and non-empty priority and category strings. -/
theorem mkTask_wellFormed (now : Timestamp) (text : String) (o : TaskOptions) :
    (mkTask now text o).id ≠ "" ∧
    jsTrim (mkTask now text o).text = (mkTask now text o).text ∧
    (mkTask now text o).priority ≠ "" ∧
    (mkTask now text o).category ≠ "" := by
  refine ⟨?_, jsTrim_idem text, ?_, ?_⟩
  · show jsOrStr o.id (generateId now) ≠ ""
    have hgen : generateId now ≠ "" := by
      intro h
      have h2 := congrArg String.length h
      rw [generateId, String.length_append] at h2
      have h5 : ("task-" : String).length = 5 := rfl
      have h0 : ("" : String).length = 0 := rfl
      rw [h5, h0] at h2
      omega
    cases o.id with
    | none => exact hgen
    | some i =>
        show (if i = "" then generateId now else i) ≠ ""
        split
        · exact hgen
        · assumption
  · show jsOrStr o.priority "normal" ≠ ""
    cases o.priority with
    | none =>
        show ("normal" : String) ≠ ""
        decide
    | some p =>
        show (if p = "" then "normal" else p) ≠ ""
        split
        · decide
        · assumption
  · show jsOrStr o.category "default" ≠ ""
    cases o.category with
    | none =>
        show ("default" : String) ≠ ""
        decide
    | some c =>
        show (if c = "" then "default" else c) ≠ ""
        split
        · decide
        · assumption

/-- C5 (counterexample): the round-trip is not lossless for every task.  The
generic own-property branch of `updateTask` can set `category` to the empty
string on a task in the collection; `toJSON` emits that empty string, and the
constructor inside `fromJSON` then replaces it by `'' || 'default' =
'default'`, so the reconstructed task differs from the original in the
`category` field. -/
theorem C5_roundtrip_counterexample :
    (mgr1.updateTask 5 "t1" { category := some "" }).1
        = Except.ok { task1 with category := "", updatedAt := 5 } ∧
    ({ task1 with category := "", updatedAt := 5 } : Task).category = "" ∧
    (Task.fromJSON 7
        (Task.toJSON { task1 with category := "", updatedAt := 5 })).category
      = "default" ∧
    Task.fromJSON 7 (Task.toJSON { task1 with category := "", updatedAt := 5 })
      ≠ { task1 with category := "", updatedAt := 5 } := by
  refine ⟨rfl, rfl, rfl, ?_⟩
  decide

/-- C5 (amended): `fromJSON(toJSON(task))` reproduces every field of the
original task for every task satisfying the representation invariants the
constructor establishes (see `mkTask_wellFormed`): a non-empty id, text equal
to its own trim, and non-empty priority and category strings.  Outside this
set — reachable only through `updateTask`'s generic own-property branch,
which can empty `category` (or `id` in the source) — the constructor's
`||`-defaulting replaces the empty string by the default and the round-trip
is lossy, as the counterexample shows. -/
theorem C5_roundtrip (now : Timestamp) (t : Task)
    (hid : t.id ≠ "") (htext : jsTrim t.text = t.text)
    (hprio : t.priority ≠ "") (hcat : t.category ≠ "") :
    Task.fromJSON now t.toJSON = t := by
  cases t with
  | mk id text completed createdAt completedAt updatedAt priority category tags dueDate description =>
    simp only [Task.toJSON] at *
    simp [Task.fromJSON, mkTask, jsOrStr, hid, htext, hprio, hcat]

/-- Witness for C5 at a concrete task. -/
theorem C5_roundtrip_witness :
    Task.fromJSON 7 task1.toJSON = task1 :=
  C5_roundtrip 7 task1 (by decide) (by decide) (by decide) (by decide)

/-- C6: when no task in the collection carries the requested id,
`removeTask(id)` throws `NotFoundError` and the state — membership and order
of the collection included — is exactly the state before the call. -/
theorem C6_removeTask_missing (s : TaskManager) (taskId : String)
    (h : ∀ t ∈ s.tasks, t.id ≠ taskId) :
    s.removeTask taskId = (Except.error TaskError.notFoundError, s) := by
  have hf : s.tasks.find? (fun t => t.id == taskId) = none := by
    rw [List.find?_eq_none]
    intro t ht
    simpa using h t ht
  simp [TaskManager.removeTask, hf]

/-- Witness for C6: removing an absent id from a concrete one-task manager. -/
theorem C6_removeTask_missing_witness :
    mgr1.removeTask "zz" = (Except.error TaskError.notFoundError, mgr1) :=
  C6_removeTask_missing mgr1 "zz" (by decide)

/-- C9: `importTasks(data, merge = true)` appends exactly the reconstructed
tasks whose id is not already present, leaving the pre-existing tasks as an
unchanged prefix — same field values, same positions; an element of the
incoming data carrying an existing id is silently dropped, never
overwritten. -/
theorem C9_importTasks_merge (s : TaskManager) (now : Timestamp)
    (data : List TaskJSON) :
    (s.importTasks now data true).2.tasks
      = s.tasks ++ (data.map (Task.fromJSON now)).filter
          (fun t => !((s.tasks.map (fun x => x.id)).contains t.id)) ∧
    (s.importTasks now data true).2.tasks.take s.tasks.length = s.tasks := by
  refine ⟨rfl, ?_⟩
  exact take_length_append s.tasks _

/-- Membership through one insertion step of the stable sort. -/
theorem mem_insertLe {le : Task → Task → Bool} {x a : Task} (l : List Task) :
    a ∈ insertLe le x l ↔ a = x ∨ a ∈ l := by
  induction l with
  | nil => simp [insertLe]
  | cons y ys ih =>
      unfold insertLe
      by_cases h : le y x = true
      · rw [if_pos h]
        simp [ih]
        tauto
      · rw [if_neg h]
        simp


/-- The stable sort is membership-preserving. -/
theorem mem_stableSort {le : Task → Task → Bool} (l : List Task) (a : Task) :
    a ∈ stableSort le l ↔ a ∈ l := by
  have key : ∀ (l acc : List Task),
      a ∈ l.foldl (fun acc x => insertLe le x acc) acc ↔ a ∈ acc ∨ a ∈ l := by
    intro l
    induction l with
    | nil =>
        intro acc
        simp
    | cons x xs ih =>
        intro acc
        rw [List.foldl_cons, ih, mem_insertLe]
        simp
        tauto
  simpa [stableSort] using key l []

/-- The search step only discards tasks. -/
theorem mem_of_searchFiltered {s : TaskManager} {l : List Task} {t : Task}
    (h : t ∈ searchFiltered s l) : t ∈ l := by
  unfold searchFiltered at h
  split at h
  · exact List.mem_of_mem_filter h
  · exact h

/-- C7: `getFilteredTasks()` with `filter = active` returns no completed task,
with `filter = completed` no incomplete task, and with `filter = all` the
status step excludes nothing.  The function is defined as a pure function of
the state: it mutates nothing, persists nothing and emits nothing. -/
theorem C7_status_filter (s : TaskManager) (t : Task) :
    (s.filter = "active" → t ∈ s.getFilteredTasks → t.completed = false) ∧
    (s.filter = "completed" → t ∈ s.getFilteredTasks → t.completed = true) ∧
    (s.filter = "all" → statusFiltered s = s.tasks) := by
  refine ⟨?_, ?_, ?_⟩
  · intro hf hm
    rw [TaskManager.getFilteredTasks, mem_stableSort] at hm
    have hm2 := mem_of_searchFiltered hm
    unfold statusFiltered at hm2
    rw [if_pos hf] at hm2
    simpa using List.of_mem_filter hm2
  · intro hf hm
    rw [TaskManager.getFilteredTasks, mem_stableSort] at hm
    have hm2 := mem_of_searchFiltered hm
    unfold statusFiltered at hm2
    rw [hf] at hm2
    rw [if_neg (by decide), if_pos rfl] at hm2
    simpa using List.of_mem_filter hm2
  · intro hf
    unfold statusFiltered
    rw [hf, if_neg (by decide), if_neg (by decide)]

/-- Witness for C7: in a concrete manager with the `active` filter, the
incomplete task is in the filtered view and the theorem yields that it is not
completed. -/
theorem C7_status_filter_witness :
    task1 ∈ mgrActive.getFilteredTasks ∧ task1.completed = false :=
  ⟨by decide, (C7_status_filter mgrActive task1).1 rfl (by decide)⟩

/-- C8: `setFilter` rejects an invalid value silently — no state change, no
event, returns false — and applies a valid one, emitting exactly
`filterChanged` (never `tasksChanged`); `setSorting` validates each component
independently, so an invalid component leaves its field unchanged while a
valid component of the same call still applies, the collection and the other
view fields are untouched, and exactly `sortingChanged` (never
`tasksChanged`) is emitted. -/
theorem C8_view_setters (s : TaskManager) (f sb so : String) :
    (f ∉ (["all", "active", "completed"] : List String) →
        s.setFilter f = (s, [], false)) ∧
    (f ∈ (["all", "active", "completed"] : List String) →
        s.setFilter f = ({ s with filter := f }, [Event.filterChanged], true)) ∧
    Event.tasksChanged ∉ (s.setFilter f).2.1 ∧
    (sb ∈ (["createdAt", "updatedAt", "priority", "text"] : List String) →
        (s.setSorting sb so).1.sortBy = sb) ∧
    (sb ∉ (["createdAt", "updatedAt", "priority", "text"] : List String) →
        (s.setSorting sb so).1.sortBy = s.sortBy) ∧
    (so ∈ (["asc", "desc"] : List String) →
        (s.setSorting sb so).1.sortOrder = so) ∧
    (so ∉ (["asc", "desc"] : List String) →
        (s.setSorting sb so).1.sortOrder = s.sortOrder) ∧
    (s.setSorting sb so).1.tasks = s.tasks ∧
    (s.setSorting sb so).1.filter = s.filter ∧
    (s.setSorting sb so).1.searchQuery = s.searchQuery ∧
    (s.setSorting sb so).2 = [Event.sortingChanged] ∧
    Event.tasksChanged ∉ (s.setSorting sb so).2 := by
  have hff : ((f = "all" || f = "active" || f = "completed") = true)
      ↔ f ∈ (["all", "active", "completed"] : List String) := by
    simp
    tauto
  have hsb : ((sb = "createdAt" || sb = "updatedAt" || sb = "priority" || sb = "text") = true)
      ↔ sb ∈ (["createdAt", "updatedAt", "priority", "text"] : List String) := by
    simp
    tauto
  have hso : ((so = "asc" || so = "desc") = true)
      ↔ so ∈ (["asc", "desc"] : List String) := by
    simp
  refine ⟨?_, ?_, ?_, ?_, ?_, ?_, ?_, ?_, ?_, ?_, ?_, ?_⟩
  · intro h
    have hb : ¬ ((f = "all" || f = "active" || f = "completed") = true) := by
      rw [hff]
      exact h
    simp [TaskManager.setFilter, hb]
  · intro h
    have hb := hff.mpr h
    simp [TaskManager.setFilter, hb]
  · by_cases hb : (f = "all" || f = "active" || f = "completed") = true <;>
      simp [TaskManager.setFilter, hb]
  · intro h
    have hb := hsb.mpr h
    by_cases ho : (so = "asc" || so = "desc") = true <;>
      simp [TaskManager.setSorting, hb, ho]
  · intro h
    have hb : ¬ ((sb = "createdAt" || sb = "updatedAt" || sb = "priority" || sb = "text") = true) := by
      rw [hsb]
      exact h
    by_cases ho : (so = "asc" || so = "desc") = true <;>
      simp [TaskManager.setSorting, hb, ho]
  · intro h
    have ho := hso.mpr h
    by_cases hb : (sb = "createdAt" || sb = "updatedAt" || sb = "priority" || sb = "text") = true <;>
      simp [TaskManager.setSorting, hb, ho]
  · intro h
    have ho : ¬ ((so = "asc" || so = "desc") = true) := by
      rw [hso]
      exact h
    by_cases hb : (sb = "createdAt" || sb = "updatedAt" || sb = "priority" || sb = "text") = true <;>
      simp [TaskManager.setSorting, hb, ho]
  · by_cases hb : (sb = "createdAt" || sb = "updatedAt" || sb = "priority" || sb = "text") = true <;>
      by_cases ho : (so = "asc" || so = "desc") = true <;>
      simp [TaskManager.setSorting, hb, ho]
  · by_cases hb : (sb = "createdAt" || sb = "updatedAt" || sb = "priority" || sb = "text") = true <;>
      by_cases ho : (so = "asc" || so = "desc") = true <;>
      simp [TaskManager.setSorting, hb, ho]
  · by_cases hb : (sb = "createdAt" || sb = "updatedAt" || sb = "priority" || sb = "text") = true <;>
      by_cases ho : (so = "asc" || so = "desc") = true <;>
      simp [TaskManager.setSorting, hb, ho]
  · rfl
  · simp [TaskManager.setSorting]

/-- Witness for C8: an invalid filter value is a silent no-op, and a valid
`sortBy` paired with an invalid `sortOrder` applies the valid component
only. -/
theorem C8_view_setters_witness :
    mgr0.setFilter "bogus" = (mgr0, [], false) ∧
    (mgr0.setSorting "priority" "nope").1.sortBy = "priority" ∧
    (mgr0.setSorting "priority" "nope").1.sortOrder = mgr0.sortOrder := by
  obtain ⟨h1, _, _, h4, _, _, h7, _⟩ := C8_view_setters mgr0 "bogus" "priority" "nope"
  exact ⟨h1 (by decide), h4 (by decide), h7 (by decide)⟩

/-- The text branch of the update loop never touches the id. -/
theorem applyText_id (now : Timestamp) (v : Option String) (t : Task) :
    (applyText now v t).id = t.id := by
  cases v with
  | none => rfl
  | some s =>
      simp only [applyText, Task.updateText]
      split
      · split <;> rfl
      · rfl

/-- The priority branch never touches the id. -/
theorem applyPriority_id (now : Timestamp) (v : Option String) (t : Task) :
    (applyPriority now v t).id = t.id := by
  cases v with
  | none => rfl
  | some p =>
      simp only [applyPriority, Task.setPriority]
      split <;> rfl

/-- The due-date branch never touches the id. -/
theorem applyDueDate_id (now : Timestamp) (v : Option (Option Timestamp)) (t : Task) :
    (applyDueDate now v t).id = t.id := by
  cases v with
  | none => rfl
  | some d => cases d <;> rfl

/-- The completed branch never touches the id. -/
theorem applyCompleted_id (now : Timestamp) (v : Option Bool) (t : Task) :
    (applyCompleted now v t).id = t.id := by
  cases v with
  | none => rfl
  | some b =>
      simp only [applyCompleted]
      split <;> rfl

/-- The category branch never touches the id. -/
theorem applyCategory_id (now : Timestamp) (v : Option String) (t : Task) :
    (applyCategory now v t).id = t.id := by
  cases v <;> rfl

/-- The description branch never touches the id. -/
theorem applyDescription_id (now : Timestamp) (v : Option String) (t : Task) :
    (applyDescription now v t).id = t.id := by
  cases v <;> rfl

/-- The tags branch never touches the id. -/
theorem applyTags_id (now : Timestamp) (v : Option (List String)) (t : Task) :
    (applyTags now v t).id = t.id := by
  cases v <;> rfl

/-- The completedAt branch never touches the id. -/
theorem applyCompletedAt_id (now : Timestamp) (v : Option (Option Timestamp)) (t : Task) :
    (applyCompletedAt now v t).id = t.id := by
  cases v <;> rfl

/-- The `updateTask`'s update loop never touches the id. -/
theorem applyUpdates_id (now : Timestamp) (t : Task) (u : Updates) :
    (applyUpdates now t u).id = t.id := by
  unfold applyUpdates
  rw [applyCompletedAt_id, applyTags_id, applyDescription_id, applyCategory_id,
    applyCompleted_id, applyDueDate_id, applyPriority_id, applyText_id]

/-- An update map carrying only `completed` reduces to the conditional
toggle. -/
theorem applyUpdates_completedOnly (now : Timestamp) (t : Task) (b : Bool) :
    applyUpdates now t { completed := some b }
      = if b ≠ t.completed then t.toggle now else t :=
  rfl

/-- Replacing the first match commutes with finding it, provided the
replacement preserves the predicate. -/
theorem find?_replaceFirst (p : Task → Bool) (g : Task → Task)
    (hpg : ∀ x, p x = true → p (g x) = true) (l : List Task) :
    (replaceFirst p g l).find? p = (l.find? p).map g := by
  induction l with
  | nil => rfl
  | cons x xs ih =>
      by_cases hp : p x = true
      · simp only [replaceFirst]
        rw [if_pos hp]
        rw [List.find?_cons_of_pos _ (hpg x hp), List.find?_cons_of_pos _ hp]
        rfl
      · simp only [replaceFirst]
        rw [if_neg hp]
        rw [List.find?_cons_of_neg _ hp, List.find?_cons_of_neg _ hp]
        exact ih

/-- The `getTask` succeeds exactly on the first task found with the id. -/
theorem getTask_eq_ok {s : TaskManager} {taskId : String} {t : Task} :
    s.getTask taskId = Except.ok t
      ↔ s.tasks.find? (fun x => x.id == taskId) = some t := by
  unfold TaskManager.getTask
  cases h : s.tasks.find? (fun x => x.id == taskId) <;> simp

/-- Unfolding of `toggleTask` on a found task: the convenience wrapper goes
through `updateTask` with `{ completed: !current }`, whose difference check
always fires, so the found task is toggled in place. -/
theorem toggleTask_found (s : TaskManager) (now : Timestamp) (taskId : String)
    (t : Task) (hf : s.tasks.find? (fun x => x.id == taskId) = some t) :
    s.toggleTask now taskId
      = (Except.ok (t.toggle now),
         { s with tasks := (replaceFirst (fun x => x.id == taskId)
             (fun x => applyUpdates now x { completed := some (!t.completed) })
             s.tasks) }) := by
  have hne : ((!t.completed) ≠ t.completed) := by
    cases t.completed <;> simp
  have happ : applyUpdates now t { completed := some (!t.completed) } = t.toggle now := by
    rw [applyUpdates_completedOnly, if_pos hne]
  unfold TaskManager.toggleTask TaskManager.getTask TaskManager.updateTask
  rw [hf]
  simp [happ]

/-- C4: `toggleTask(t.id)` flips `completed`; a second `toggleTask` restores
the original `completed` value and the original set/cleared state of
`completedAt` (for a task satisfying the documented `completedAt ↔ completed`
invariant), while `updatedAt` strictly advances across the pair of calls
(under a strictly increasing clock). -/
theorem C4_toggleTask_double (s : TaskManager) (taskId : String) (t : Task)
    (now1 now2 : Timestamp)
    (hget : s.getTask taskId = Except.ok t)
    (hinv : t.completedAt.isSome = t.completed)
    (h1 : t.updatedAt < now1) (h12 : now1 < now2) :
    (s.toggleTask now1 taskId).1 = Except.ok (t.toggle now1) ∧
    (t.toggle now1).completed = (!t.completed) ∧
    ((s.toggleTask now1 taskId).2.toggleTask now2 taskId).1
      = Except.ok ((t.toggle now1).toggle now2) ∧
    ((t.toggle now1).toggle now2).completed = t.completed ∧
    ((t.toggle now1).toggle now2).completedAt.isSome = t.completedAt.isSome ∧
    t.updatedAt < ((t.toggle now1).toggle now2).updatedAt := by
  have hf := getTask_eq_ok.mp hget
  have ht1 := toggleTask_found s now1 taskId t hf
  have hpg : ∀ x : Task, (x.id == taskId) = true →
      ((applyUpdates now1 x { completed := some (!t.completed) }).id == taskId) = true := by
    intro x hx
    rw [applyUpdates_id]
    exact hx
  have hf2 : ((s.toggleTask now1 taskId).2).tasks.find? (fun x => x.id == taskId)
      = some (t.toggle now1) := by
    rw [ht1]
    show (replaceFirst _ _ s.tasks).find? _ = _
    rw [find?_replaceFirst _ _ hpg, hf]
    have hne : ((!t.completed) ≠ t.completed) := by
      cases t.completed <;> simp
    simp only [Option.map_some', applyUpdates_completedOnly]
    rw [if_pos hne]
  have ht2 := toggleTask_found (s.toggleTask now1 taskId).2 now2 taskId
    (t.toggle now1) hf2
  refine ⟨by rw [ht1], rfl, by rw [ht2], ?_, ?_, ?_⟩
  · simp [Task.toggle]
  · rw [hinv]
    cases hb : t.completed <;> simp [Task.toggle, hb]
  · have hupd : ((t.toggle now1).toggle now2).updatedAt = now2 := rfl
    rw [hupd]
    exact lt_trans h1 h12

/-- Witness for C4 at a concrete manager: toggling the single incomplete task
twice restores its completion state. -/
theorem C4_toggleTask_double_witness :
    (mgr1.toggleTask 1 "t1").1 = Except.ok (task1.toggle 1) ∧
    ((mgr1.toggleTask 1 "t1").2.toggleTask 2 "t1").1
      = Except.ok ((task1.toggle 1).toggle 2) ∧
    ((task1.toggle 1).toggle 2).completed = task1.completed := by
  have h := C4_toggleTask_double mgr1 "t1" task1 1 2 rfl rfl (by decide) (by decide)
  exact ⟨h.1, h.2.2.1, h.2.2.2.1⟩

/-- The `addTask` never touches the view fields. -/
theorem viewOf_addTask (s : TaskManager) (now : Timestamp) (text : String)
    (o : TaskOptions) : viewOf (s.addTask now text o).2 = viewOf s := by
  unfold TaskManager.addTask
  split <;> rfl

/-- The `removeTask` never touches the view fields. -/
theorem viewOf_removeTask (s : TaskManager) (taskId : String) :
    viewOf (s.removeTask taskId).2 = viewOf s := by
  unfold TaskManager.removeTask
  cases s.tasks.find? (fun t => t.id == taskId) <;> rfl

/-- The `updateTask` never touches the view fields. -/
theorem viewOf_updateTask (s : TaskManager) (now : Timestamp) (taskId : String)
    (u : Updates) : viewOf (s.updateTask now taskId u).2 = viewOf s := by
  unfold TaskManager.updateTask
  cases s.tasks.find? (fun t => t.id == taskId) <;> rfl

/-- The `toggleTask` never touches the view fields. -/
theorem viewOf_toggleTask (s : TaskManager) (now : Timestamp) (taskId : String) :
    viewOf (s.toggleTask now taskId).2 = viewOf s := by
  unfold TaskManager.toggleTask
  cases s.getTask taskId with
  | error e => rfl
  | ok t => exact viewOf_updateTask s now taskId _

/-- One `bulkDelete` iteration never touches the view fields. -/
theorem viewOf_bulkDeleteStep (acc : List Task × TaskManager) (taskId : String) :
    viewOf (bulkDeleteStep acc taskId).2 = viewOf acc.2 := by
  unfold bulkDeleteStep
  rcases h : acc.2.removeTask taskId with ⟨r, s1⟩
  have hv : viewOf s1 = viewOf acc.2 := by
    have hrm := viewOf_removeTask acc.2 taskId
    rw [h] at hrm
    exact hrm
  cases r <;> exact hv

/-- The `bulkDelete` never touches the view fields. -/
theorem viewOf_bulkDelete (s : TaskManager) (ids : List String) :
    viewOf (s.bulkDelete ids).2 = viewOf s := by
  unfold TaskManager.bulkDelete
  suffices h : ∀ (ids : List String) (acc : List Task × TaskManager),
      viewOf (ids.foldl bulkDeleteStep acc).2 = viewOf acc.2 by
    exact h ids ([], s)
  intro ids
  induction ids with
  | nil =>
      intro acc
      rfl
  | cons i is ih =>
      intro acc
      rw [List.foldl_cons, ih, viewOf_bulkDeleteStep]

/-- One `bulkComplete` iteration never touches the view fields. -/
theorem viewOf_bulkCompleteStep (now : Timestamp) (acc : List Task × TaskManager)
    (taskId : String) : viewOf (bulkCompleteStep now acc taskId).2 = viewOf acc.2 := by
  unfold bulkCompleteStep
  cases hg : acc.2.getTask taskId with
  | error e => rfl
  | ok t =>
      by_cases hc : (!t.completed) = true
      · dsimp only
        rw [if_pos hc]
        rcases h : acc.2.toggleTask now taskId with ⟨r, s1⟩
        have hv : viewOf s1 = viewOf acc.2 := by
          have htg := viewOf_toggleTask acc.2 now taskId
          rw [h] at htg
          exact htg
        cases r <;> exact hv
      · dsimp only
        rw [if_neg hc]

/-- The `bulkComplete` never touches the view fields. -/
theorem viewOf_bulkComplete (s : TaskManager) (now : Timestamp) (ids : List String) :
    viewOf (s.bulkComplete now ids).2 = viewOf s := by
  unfold TaskManager.bulkComplete
  suffices h : ∀ (ids : List String) (acc : List Task × TaskManager),
      viewOf (ids.foldl (bulkCompleteStep now) acc).2 = viewOf acc.2 by
    exact h ids ([], s)
  intro ids
  induction ids with
  | nil =>
      intro acc
      rfl
  | cons i is ih =>
      intro acc
      rw [List.foldl_cons, ih, viewOf_bulkCompleteStep]

/-- The `importTasks` never touches the view fields. -/
theorem viewOf_importTasks (s : TaskManager) (now : Timestamp)
    (data : List TaskJSON) (merge : Bool) :
    viewOf (s.importTasks now data merge).2 = viewOf s := by
  unfold TaskManager.importTasks
  split <;> rfl

/-- C10: every collection-mutating operation other than `reset` — `addTask`,
`removeTask`, `updateTask`, `toggleTask`, `bulkComplete`, `bulkDelete`,
`clearCompleted` and `importTasks` — leaves the manager's `filter`,
`searchQuery`, `sortBy` and `sortOrder` fields exactly as they were. -/
theorem C10_mutators_preserve_view (s : TaskManager) (now : Timestamp)
    (text taskId : String) (o : TaskOptions) (u : Updates) (ids : List String)
    (data : List TaskJSON) (merge : Bool) :
    viewOf (s.addTask now text o).2 = viewOf s ∧
    viewOf (s.removeTask taskId).2 = viewOf s ∧
    viewOf (s.updateTask now taskId u).2 = viewOf s ∧
    viewOf (s.toggleTask now taskId).2 = viewOf s ∧
    viewOf (s.bulkComplete now ids).2 = viewOf s ∧
    viewOf (s.bulkDelete ids).2 = viewOf s ∧
    viewOf s.clearCompleted.2 = viewOf s ∧
    viewOf (s.importTasks now data merge).2 = viewOf s :=
  ⟨viewOf_addTask s now text o, viewOf_removeTask s taskId,
   viewOf_updateTask s now taskId u, viewOf_toggleTask s now taskId,
   viewOf_bulkComplete s now ids, viewOf_bulkDelete s ids, rfl,
   viewOf_importTasks s now data merge⟩

end Todo
